import Mathlib

/-!
Verification of the hybrid retrieval core of the order-processing MVP
(`src/rag/manager.py`: `RAGManager.load_ndjson`, `RAGManager.index_folder`,
`RAGManager.get_vector_store`, `RAGManager.query`).

Strings are modelled as `List Char` (the texts handled are ASCII, for which
Python's `str.upper`/`str.lower` agree with `Char.toUpper`/`Char.toLower`).
The external embedding backend (Chroma + HuggingFace embeddings) is modelled
as a search capability `Str → Nat → List (Doc × ℚ)` carried by the store:
given the query text and `k`, it returns scored documents
(`similarity_search_with_relevance_scores`).  Relevance scores (Python
floats) are modelled as rationals.
-/

set_option maxRecDepth 4000

/-- Python strings, modelled as lists of characters. -/
abbrev Str := List Char

/-- Python `str.upper()` (ASCII). -/
def strUpper (s : Str) : Str := s.map Char.toUpper

/-- Python `str.lower()` (ASCII). -/
def strLower (s : Str) : Str := s.map Char.toLower

/-- Is the first string a prefix of the second? -/
def prefixStr : Str → Str → Bool
  | [], _ => true
  | _ :: _, [] => false
  | a :: s, b :: t => a == b && prefixStr s t

/-- Python `sub in hay` substring test. -/
def containsStr : Str → Str → Bool
  | hay, sub =>
    if prefixStr sub hay then true
    else
      match hay with
      | [] => false
      | _ :: t => containsStr t sub

/-- Python regex `\w` on ASCII input: letters, digits, underscore. -/
def wordChar (c : Char) : Bool := c.isAlphanum || c == '_'

/-- The character class `[\w\.-]` of the email pattern. -/
def emailChar (c : Char) : Bool := wordChar c || c == '.' || c == '-'

/-- Attempt to match the regex `ORD-\d{4}` (with `re.IGNORECASE`) at the
head of the string; on success return the matched eight characters
(`match.group()`), exactly as `re` does at one start position. -/
def idMatchAt : Str → Option Str
  | c1 :: c2 :: c3 :: c4 :: d1 :: d2 :: d3 :: d4 :: _ =>
    if c1.toUpper = 'O' ∧ c2.toUpper = 'R' ∧ c3.toUpper = 'D' ∧ c4 = '-' ∧
       d1.isDigit ∧ d2.isDigit ∧ d3.isDigit ∧ d4.isDigit then
      some [c1, c2, c3, c4, d1, d2, d3, d4]
    else none
  | _ => none

/-- `re.search` for `ORD-\d{4}` (case-insensitive): try each start
position from the left, returning the first match. -/
def idSearch : Str → Option Str
  | [] => none
  | c :: rest =>
    match idMatchAt (c :: rest) with
    | some m => some m
    | none => idSearch rest

/-- Does position `j` of `run` admit the `\.\w+` continuation after a
middle part of length `j ≥ 1`?  Used to replay the greedy backtracking of
`[\w\.-]+\.\w+`. -/
def dotOk (run : Str) (j : Nat) : Bool :=
  decide (1 ≤ j) && decide (j + 1 < run.length) &&
    (run.getD j ' ' == '.') && wordChar (run.getD (j + 1) ' ')

/-- Largest `j ≤ start` with `dotOk run j` (the greedy engine tries the
longest middle part first). -/
def findSplit (run : Str) : Nat → Option Nat
  | 0 => none
  | j + 1 => if dotOk run (j + 1) then some (j + 1) else findSplit run j

/-- Attempt to match `[\w\.-]+@[\w\.-]+\.\w+` at the head of the string,
with Python's leftmost-greedy semantics at one start position.  The first
`[\w\.-]+` must be a maximal run ending right on `@` (shorter runs would
still face a class character, never `@`); after `@` the engine takes the
longest middle run that leaves `\.\w+` matchable. -/
def emailMatchAt (s : Str) : Option Str :=
  let p1 := s.takeWhile emailChar
  let r1 := s.dropWhile emailChar
  if p1.isEmpty then none
  else
    match r1 with
    | [] => none
    | a :: rest2 =>
      if a == '@' then
        let run := rest2.takeWhile emailChar
        match findSplit run (run.length - 1) with
        | none => none
        | some j =>
          let tail := (run.drop (j + 1)).takeWhile wordChar
          some (p1 ++ '@' :: (run.take j ++ '.' :: tail))
      else none

/-- `re.search` for `[\w\.-]+@[\w\.-]+\.\w+`: leftmost match. -/
def emailSearch : Str → Option Str
  | [] => none
  | c :: rest =>
    match emailMatchAt (c :: rest) with
    | some m => some m
    | none => emailSearch rest

example : idSearch ("please check ord-0033 now".toList) = some ("ord-0033".toList) := by decide
example : idSearch ("ORD-12 and ORD-1234".toList) = some ("ORD-1234".toList) := by decide
example : idSearch ("nothing here".toList) = none := by decide
example : emailSearch ("mail a.b-c@x.co.uk today".toList) = some ("a.b-c@x.co.uk".toList) := by decide
example : emailSearch ("ORD-0003 a@x.com".toList) = some ("a@x.com".toList) := by decide
example : emailSearch ("no at sign.".toList) = none := by decide
example : emailSearch ("..@..a".toList) = some ("..@..a".toList) := by decide

/-!  Data model: documents, stores, manager state. -/

/-- A stored document: its text plus the metadata fields the retrieval
code reads (`metadata.get` returns `None` for an absent key, hence
`Option`).  `dtype` models the `"type"` metadata key. -/
structure Doc where
  content : Str
  orderId : Option Str
  customerEmail : Option Str
  source : Option Str
  dtype : Option Str
deriving DecidableEq

/-- The vector store handle (Chroma): the persisted documents
(`store.get()` enumerates them in order) together with the external
similarity-search capability
(`similarity_search_with_relevance_scores(text, k)`). -/
structure Store where
  docs : List Doc
  search : Str → Nat → List (Doc × ℚ)

/-- `RAGManager` state: `persist_directory`, the embeddings handle
(abstract), the nullable `vector_store`, and the contents of the persist
directory on disk (`[]` models an existing-but-empty directory, since
`__init__` and `index_folder` always recreate the directory). -/
structure MgrState where
  persistDirectory : Str
  embeddings : Nat
  vectorStore : Option Store
  disk : List Doc

/-- Value of a `tags` field: JSON string or JSON array of strings
(`isinstance(tags, str)` / `isinstance(tags, list)`). -/
inductive Tags where
  | tstr (s : Str)
  | tlist (l : List Str)
deriving DecidableEq

/-- The `shipping` sub-object; absent keys are `Option`
(`shipping.get('city', 'N/A')`). -/
structure ShipInfo where
  city : Option Str
  country_code : Option Str
deriving DecidableEq

/-- One parsed NDJSON order record (the argument of the per-line
transform in `load_ndjson`).  `quantity` and `unit_price` are kept as
the string Python's f-string interpolation would render (they are
treated opaquely by the code; the `data.get(..., 0)` default renders as
`"0"`). -/
structure Record where
  order_id : Option Str
  customer_email : Option Str
  status : Option Str
  quantity : Option Str
  unit_price : Option Str
  shipping : Option ShipInfo
  tags : Option Tags
  coupon_code : Option Str
  is_gift : Option Bool
deriving DecidableEq

/-- The record with every field absent (`{}` in NDJSON). -/
def emptyRecord : Record :=
  { order_id := none, customer_email := none, status := none,
    quantity := none, unit_price := none, shipping := none,
    tags := none, coupon_code := none, is_gift := none }

/-- The `Tags:` line of the generated text (`', '.join(tags)` for a
list, the raw string for a string). -/
def tagsLine : Tags → Str
  | Tags.tstr s => ("Tags: ".toList) ++ s ++ ("\n".toList)
  | Tags.tlist l => ("Tags: ".toList) ++ (List.intercalate (", ".toList) l) ++ ("\n".toList)

/-- The per-line transform of `RAGManager.load_ndjson` (lines 61-99 of
`manager.py`): build the keyword-enriched text block and the metadata of
one order document.  `src` is the file path (`metadata["source"]`). -/
def buildDocument (r : Record) (src : Str) : Doc :=
  let oid := r.order_id.getD ("N/A".toList)
  let customer := r.customer_email.getD ("N/A".toList)
  let ship := r.shipping.getD { city := none, country_code := none }
  let text :=
    ("ORDER_SEARCH_ID: ".toList) ++ oid ++ ("\nCUSTOMER_SEARCH_EMAIL: ".toList) ++ customer ++ ("\n".toList) ++
    ("Order Details:\n".toList) ++
    ("Order ID: ".toList) ++ oid ++ ("\n".toList) ++
    ("Customer: ".toList) ++ customer ++ ("\n".toList) ++
    ("Status: ".toList) ++ r.status.getD ("N/A".toList) ++ ("\n".toList) ++
    ("Quantity: ".toList) ++ r.quantity.getD ("0".toList) ++ (", Unit Price: ".toList) ++ r.unit_price.getD ("0".toList) ++ ("\n".toList) ++
    ("Shipping: ".toList) ++ ship.city.getD ("N/A".toList) ++ (", ".toList) ++ ship.country_code.getD ("N/A".toList) ++ ("\n".toList) ++
    tagsLine (r.tags.getD (Tags.tlist [])) ++
    (match r.coupon_code with
     | some c => if c.isEmpty then [] else ("Coupon: ".toList) ++ c ++ ("\n".toList)
     | none => []) ++
    (match r.is_gift with
     | some true => ("Is Gift: True\n".toList)
     | _ => [])
  { content := text, orderId := some oid, customerEmail := some customer,
    source := some src, dtype := some ("order".toList) }

/-!  NDJSON folder scanning (`load_ndjson` loop + `index_folder`). -/

/-- One line of an NDJSON file as the loop in `load_ndjson` sees it:
whitespace-only (skipped by `if not line.strip()`), unparseable
(`json.loads` raises, line logged and skipped), or a parsed record. -/
inductive Line where
  | blank
  | bad
  | ok (r : Record)

/-- An NDJSON candidate file found by `os.walk`: its path and lines. -/
structure NdFile where
  name : Str
  lines : List Line

/-- The document list produced by the per-line loop of `load_ndjson`:
blank and unparseable lines are skipped, parsed records become
documents. -/
def parseLines (src : Str) : List Line → List Doc
  | [] => []
  | Line.blank :: rest => parseLines src rest
  | Line.bad :: rest => parseLines src rest
  | Line.ok r :: rest => buildDocument r src :: parseLines src rest

/-- `RAGManager.load_ndjson` on one (existing) file. -/
def loadNdjson (f : NdFile) : List Doc := parseLines f.name f.lines

/-- All documents gathered by `index_folder`'s walk: files ending in
`.ndjson` are loaded, the rest are ignored. -/
def folderDocs (folder : List NdFile) : List Doc :=
  ((folder.filter (fun f => (".ndjson".toList).isSuffixOf f.name)).map loadNdjson).flatten

/-- `RAGManager.index_folder` (lines 109-140): if no documents were
found, warn and return unchanged; otherwise wipe the persist directory
(`shutil.rmtree` + `os.makedirs`) and recreate the store from the
gathered documents via `Chroma.from_documents`.  `mkSearch` is the
external capability producing the similarity-search function of a store
holding the given documents. -/
def indexFolder (mkSearch : List Doc → Str → Nat → List (Doc × ℚ))
    (st : MgrState) (folder : List NdFile) : MgrState :=
  let allDocuments := folderDocs folder
  if allDocuments.isEmpty then st
  else { st with disk := allDocuments,
                 vectorStore := some { docs := allDocuments, search := mkSearch allDocuments } }

/-!  `RAGManager.query` (lines 155-214). -/

/-- A member of the Python set `found_ids`: either `None` (added by the
vector pass for a document without `order_id` metadata) or a string. -/
abbrev Key := Option Str

/-- One element of the `sources` list built by `query`.  `content`,
`documentId` and `score` are the three keys of the Python dict; `oid`
(the `order_id` metadata of the originating document) and `isExact`
(whether the entry was appended by the exact-match pass) are ghost
fields recording provenance, erased by `toQueryResult`. -/
structure ResultE where
  content : Str
  documentId : Str
  score : ℚ
  oid : Option Str
  isExact : Bool
deriving DecidableEq

/-- The dict actually returned by `query`. -/
structure QueryResult where
  content : Str
  documentId : Str
  score : ℚ
deriving DecidableEq

/-- Erase the ghost provenance fields. -/
def toQueryResult (r : ResultE) : QueryResult :=
  { content := r.content, documentId := r.documentId, score := r.score }

/-- `is_id_match = target_id and doc_id and
target_id.group().upper() == doc_id.upper()` (line 187); `doc_id` must
be truthy, i.e. a non-empty string. -/
def isIdMatch (targetId : Option Str) (docId : Option Str) : Bool :=
  match targetId, docId with
  | some t, some d => !d.isEmpty && (strUpper t == strUpper d)
  | _, _ => false

/-- `is_email_match = target_email and doc_email and
target_email.group().lower() == doc_email.lower()` (line 189). -/
def isEmailMatch (targetEmail : Option Str) (docEmail : Option Str) : Bool :=
  match targetEmail, docEmail with
  | some t, some d => !d.isEmpty && (strLower t == strLower d)
  | _, _ => false

/-- The synthetic per-row key `f"email_{i}"` (line 192). -/
def syntheticKey (i : Nat) : Str := ("email_".toList) ++ Nat.toDigits 10 i

/-- `current_id = doc_id or f"email_{i}"`: the stored `order_id` when it
is truthy, else the synthetic key. -/
def currentId (docId : Option Str) (i : Nat) : Str :=
  match docId with
  | some s => if s.isEmpty then syntheticKey i else s
  | none => syntheticKey i

/-- The dict appended by the exact-match pass (lines 194-198):
`score = 1.0`, `document_id = metadata.get('source', 'unknown')`. -/
def mkExactEntry (d : Doc) : ResultE :=
  { content := d.content, documentId := d.source.getD ("unknown".toList),
    score := 1, oid := d.orderId, isExact := true }

/-- The dict appended by the vector pass (lines 207-211). -/
def mkSemEntry (d : Doc) (score : ℚ) : ResultE :=
  { content := d.content, documentId := d.source.getD ("unknown".toList),
    score := score, oid := d.orderId, isExact := false }

/-- The full-scan exact-match loop (lines 182-199): walk the enumerated
documents with their index, appending every ID- or email-match whose
`current_id` is not yet in `found_ids`. -/
def exactScan (targetId targetEmail : Option Str) :
    List Doc → Nat → List ResultE → List Key → List ResultE × List Key
  | [], _, sources, foundIds => (sources, foundIds)
  | d :: rest, i, sources, foundIds =>
    if isIdMatch targetId d.orderId || isEmailMatch targetEmail d.customerEmail then
      if (some (currentId d.orderId i)) ∈ foundIds then
        exactScan targetId targetEmail rest (i + 1) sources foundIds
      else
        exactScan targetId targetEmail rest (i + 1)
          (sources ++ [mkExactEntry d]) (foundIds ++ [some (currentId d.orderId i)])
    else
      exactScan targetId targetEmail rest (i + 1) sources foundIds

/-- The vector-result loop (lines 204-212): append each scored document
whose `order_id` metadata (possibly `None`) is not yet in `found_ids`. -/
def semanticAdd : List (Doc × ℚ) → List ResultE → List Key → List ResultE × List Key
  | [], sources, foundIds => (sources, foundIds)
  | (d, score) :: rest, sources, foundIds =>
    if d.orderId ∈ foundIds then semanticAdd rest sources foundIds
    else semanticAdd rest (sources ++ [mkSemEntry d score]) (foundIds ++ [d.orderId])

/-- The `sources` list of `query` before the final `sources[:k]`
truncation: vector search, then (when the query text contains an ID or
email pattern) the exact-match scan, then the vector results with
cross-pass deduplication.  The `try/except` around the scan (lines
180-201) only matters when the backend's `store.get()` raises; the scan
enumeration is modelled as succeeding. -/
def queryCombined (s : Store) (text : Str) (k : Nat) : List ResultE :=
  let results := s.search text k
  let targetId := idSearch text
  let targetEmail := emailSearch text
  let scanned :=
    if targetId.isSome || targetEmail.isSome then
      exactScan targetId targetEmail s.docs 0 [] []
    else ([], [])
  (semanticAdd results scanned.1 scanned.2).1

/-- The result list of `RAGManager.query` once the store is resolved:
`sources[:k]` (line 214), with ghost provenance fields kept. -/
def queryFull (s : Store) (text : Str) (k : Nat) : List ResultE :=
  (queryCombined s text k).take k

/-- `RAGManager.get_vector_store` (lines 142-153): return the cached
handle; else, if the persist directory exists and is non-empty, load a
handle over it (via the external capability `mkSearch`) and cache it;
else return `None`.  Returns the handle and the updated state. -/
def getVectorStore (mkSearch : List Doc → Str → Nat → List (Doc × ℚ))
    (st : MgrState) : Option Store × MgrState :=
  match st.vectorStore with
  | some s => (some s, st)
  | none =>
    if st.disk.isEmpty then (none, st)
    else
      let s : Store := { docs := st.disk, search := mkSearch st.disk }
      (some s, { st with vectorStore := some s })

/-- `RAGManager.query` (lines 155-214) as a state transformer: resolve
the store (possibly caching it), return `[]` when there is none, else
the hybrid result list. -/
def queryS (mkSearch : List Doc → Str → Nat → List (Doc × ℚ))
    (st : MgrState) (text : Str) (k : Nat) : List ResultE × MgrState :=
  match getVectorStore mkSearch st with
  | (none, st1) => ([], st1)
  | (some s, st1) => (queryFull s text k, st1)

/-- The value `query` hands to its callers: the list of plain dicts. -/
def queryPy (mkSearch : List Doc → Str → Nat → List (Doc × ℚ))
    (st : MgrState) (text : Str) (k : Nat) : List QueryResult :=
  ((queryS mkSearch st text k).1).map toQueryResult

/-!  Concrete scenarios used by counterexamples and witnesses. -/

/-- Order `ORD-0001` of customer `a@x.com`. -/
def recA : Record :=
  { emptyRecord with order_id := some ("ORD-0001".toList),
                     customer_email := some ("a@x.com".toList),
                     status := some ("shipped".toList) }

/-- Order `ORD-0003` of customer `b@y.com`. -/
def recB : Record :=
  { emptyRecord with order_id := some ("ORD-0003".toList),
                     customer_email := some ("b@y.com".toList),
                     status := some ("pending".toList) }

/-- The path the demo data lives at. -/
def srcPath : Str := "data/raw/orders.ndjson".toList

/-- The two demo documents, exactly as `load_ndjson` builds them. -/
def docA : Doc := buildDocument recA srcPath

/-- Second demo document. -/
def docB : Doc := buildDocument recB srcPath

/-- A store holding the two demo documents whose backend returns no
vector results. -/
def storeAB : Store := { docs := [docA, docB], search := fun _ _ => [] }

example : idSearch ("ORD-0003 a@x.com".toList) = some ("ORD-0003".toList) := by decide
example : (queryFull storeAB ("ORD-0003 a@x.com".toList) 10) = [mkExactEntry docA, mkExactEntry docB] := by decide
example : containsStr docA.content ("ORD-0003".toList) = false := by decide
example : containsStr docA.content ("ORDER_SEARCH_ID: ORD-0001".toList) = true := by decide

/-!  Structural lemmas about the two passes of `query`. -/

/-- The match condition of the exact-match scan for one document. -/
def scanMatch (tid tem : Option Str) (d : Doc) : Bool :=
  isIdMatch tid d.orderId || isEmailMatch tem d.customerEmail

theorem exactScan_split (tid tem : Option Str) :
    ∀ (docs : List Doc) (i : Nat) (src : List ResultE) (fnd : List Key),
      ∃ es, (exactScan tid tem docs i src fnd).1 = src ++ es ∧
        ∀ r ∈ es, ∃ d, d ∈ docs ∧ r = mkExactEntry d ∧ scanMatch tid tem d = true := by
  intro docs
  induction docs with
  | nil =>
    intro i src fnd
    exact ⟨[], by simp [exactScan], by simp⟩
  | cons d rest ih =>
    intro i src fnd
    cases hm : scanMatch tid tem d with
    | false =>
      obtain ⟨es, h1, h2⟩ := ih (i + 1) src fnd
      refine ⟨es, ?_, ?_⟩
      · rw [exactScan]
        rw [show (isIdMatch tid d.orderId || isEmailMatch tem d.customerEmail) = false from hm]
        simpa using h1
      · intro r hr
        obtain ⟨d', hd', he, hmm⟩ := h2 r hr
        exact ⟨d', List.mem_cons_of_mem _ hd', he, hmm⟩
    | true =>
      by_cases hk : (some (currentId d.orderId i)) ∈ fnd
      · obtain ⟨es, h1, h2⟩ := ih (i + 1) src fnd
        refine ⟨es, ?_, ?_⟩
        · rw [exactScan]
          rw [show (isIdMatch tid d.orderId || isEmailMatch tem d.customerEmail) = true from hm]
          simpa [hk] using h1
        · intro r hr
          obtain ⟨d', hd', he, hmm⟩ := h2 r hr
          exact ⟨d', List.mem_cons_of_mem _ hd', he, hmm⟩
      · obtain ⟨es, h1, h2⟩ := ih (i + 1) (src ++ [mkExactEntry d]) (fnd ++ [some (currentId d.orderId i)])
        refine ⟨mkExactEntry d :: es, ?_, ?_⟩
        · rw [exactScan]
          rw [show (isIdMatch tid d.orderId || isEmailMatch tem d.customerEmail) = true from hm]
          simpa [hk, List.append_assoc] using h1
        · intro r hr
          rcases List.mem_cons.mp hr with h | h
          · exact ⟨d, List.mem_cons_self _ _, h, hm⟩
          · obtain ⟨d', hd', he, hmm⟩ := h2 r h
            exact ⟨d', List.mem_cons_of_mem _ hd', he, hmm⟩

theorem semanticAdd_split :
    ∀ (results : List (Doc × ℚ)) (src : List ResultE) (fnd : List Key),
      ∃ es, (semanticAdd results src fnd).1 = src ++ es ∧
        ∀ r ∈ es, ∃ d q, (d, q) ∈ results ∧ r = mkSemEntry d q := by
  intro results
  induction results with
  | nil =>
    intro src fnd
    exact ⟨[], by simp [semanticAdd], by simp⟩
  | cons p rest ih =>
    intro src fnd
    obtain ⟨d, q⟩ := p
    by_cases hk : d.orderId ∈ fnd
    · obtain ⟨es, h1, h2⟩ := ih src fnd
      refine ⟨es, ?_, ?_⟩
      · rw [semanticAdd]
        simpa [hk] using h1
      · intro r hr
        obtain ⟨d', q', hp, he⟩ := h2 r hr
        exact ⟨d', q', List.mem_cons_of_mem _ hp, he⟩
    · obtain ⟨es, h1, h2⟩ := ih (src ++ [mkSemEntry d q]) (fnd ++ [d.orderId])
      refine ⟨mkSemEntry d q :: es, ?_, ?_⟩
      · rw [semanticAdd]
        simpa [hk, List.append_assoc] using h1
      · intro r hr
        rcases List.mem_cons.mp hr with h | h
        · exact ⟨d, q, List.mem_cons_self _ _, h⟩
        · obtain ⟨d', q', hp, he⟩ := h2 r h
          exact ⟨d', q', List.mem_cons_of_mem _ hp, he⟩

theorem exactScan_ne_nil (tid tem : Option Str) :
    ∀ (docs : List Doc) (i : Nat) (src : List ResultE) (fnd : List Key),
      (fnd ≠ [] → src ≠ []) →
      ∀ d ∈ docs, scanMatch tid tem d = true →
      (exactScan tid tem docs i src fnd).1 ≠ [] := by
  intro docs
  induction docs with
  | nil => intro i src fnd _ d hd; exact absurd hd (List.not_mem_nil d)
  | cons d0 rest ih =>
    intro i src fnd hinv d hd hm
    cases hm0 : scanMatch tid tem d0 with
    | false =>
      rw [exactScan]
      rw [show (isIdMatch tid d0.orderId || isEmailMatch tem d0.customerEmail) = false from hm0]
      simp only [Bool.false_eq_true, if_false]
      rcases List.mem_cons.mp hd with h | h
      · exact absurd (h ▸ hm) (by simp [hm0])
      · exact ih (i + 1) src fnd hinv d h hm
    | true =>
      rw [exactScan]
      rw [show (isIdMatch tid d0.orderId || isEmailMatch tem d0.customerEmail) = true from hm0]
      simp only [if_true]
      by_cases hk : (some (currentId d0.orderId i)) ∈ fnd
      · rw [if_pos hk]
        have hsrc : src ≠ [] := hinv (by rintro rfl; simp at hk)
        obtain ⟨es, h1, -⟩ := exactScan_split tid tem rest (i + 1) src fnd
        rw [h1]
        intro hcon
        exact hsrc (List.append_eq_nil.mp hcon).1
      · rw [if_neg hk]
        obtain ⟨es, h1, -⟩ :=
          exactScan_split tid tem rest (i + 1) (src ++ [mkExactEntry d0])
            (fnd ++ [some (currentId d0.orderId i)])
        rw [h1]
        intro hcon
        have := (List.append_eq_nil.mp hcon).1
        simp at this

/-- Two result entries do not carry the same non-empty order ID. -/
def OidDistinct (a b : ResultE) : Prop :=
  ∀ x : Str, x ≠ [] → a.oid = some x → b.oid ≠ some x

theorem exactScan_dedup (tid tem : Option Str) :
    ∀ (docs : List Doc) (i : Nat) (src : List ResultE) (fnd : List Key),
      (∀ r ∈ src, ∀ x : Str, x ≠ [] → r.oid = some x → (some x) ∈ fnd) →
      src.Pairwise OidDistinct →
      (∀ r ∈ (exactScan tid tem docs i src fnd).1, ∀ x : Str, x ≠ [] →
          r.oid = some x → (some x) ∈ (exactScan tid tem docs i src fnd).2) ∧
      ((exactScan tid tem docs i src fnd).1).Pairwise OidDistinct := by
  intro docs
  induction docs with
  | nil =>
    intro i src fnd h1 h2
    exact ⟨by simpa [exactScan] using h1, by simpa [exactScan] using h2⟩
  | cons d rest ih =>
    intro i src fnd h1 h2
    cases hm : scanMatch tid tem d with
    | false =>
      rw [exactScan]
      rw [show (isIdMatch tid d.orderId || isEmailMatch tem d.customerEmail) = false from hm]
      simp only [Bool.false_eq_true, if_false]
      exact ih (i + 1) src fnd h1 h2
    | true =>
      rw [exactScan]
      rw [show (isIdMatch tid d.orderId || isEmailMatch tem d.customerEmail) = true from hm]
      simp only [if_true]
      by_cases hk : (some (currentId d.orderId i)) ∈ fnd
      · rw [if_pos hk]
        exact ih (i + 1) src fnd h1 h2
      · rw [if_neg hk]
        apply ih (i + 1)
        · intro r hr x hx hox
          rcases List.mem_append.mp hr with h | h
          · exact List.mem_append_left _ (h1 r h x hx hox)
          · have he : r = mkExactEntry d := by simpa using h
            have : currentId d.orderId i = x := by
              have : d.orderId = some x := by
                simpa [mkExactEntry, he] using hox
              simp [currentId, this, List.isEmpty_iff, hx]
            rw [← this]
            simp
        · rw [List.pairwise_append]
          refine ⟨h2, by simp, ?_⟩
          intro a ha b hb
          have hb' : b = mkExactEntry d := by simpa using hb
          intro x hx hax hbx
          have hdx : d.orderId = some x := by simpa [mkExactEntry, hb'] using hbx
          have hcid : currentId d.orderId i = x := by
            simp [currentId, hdx, List.isEmpty_iff, hx]
          exact hk (hcid ▸ h1 a ha x hx hax)

theorem semanticAdd_dedup :
    ∀ (results : List (Doc × ℚ)) (src : List ResultE) (fnd : List Key),
      (∀ r ∈ src, ∀ x : Str, x ≠ [] → r.oid = some x → (some x) ∈ fnd) →
      src.Pairwise OidDistinct →
      ((semanticAdd results src fnd).1).Pairwise OidDistinct := by
  intro results
  induction results with
  | nil =>
    intro src fnd _ h2
    simpa [semanticAdd] using h2
  | cons p rest ih =>
    intro src fnd h1 h2
    obtain ⟨d, q⟩ := p
    rw [semanticAdd]
    by_cases hk : d.orderId ∈ fnd
    · rw [if_pos hk]
      exact ih src fnd h1 h2
    · rw [if_neg hk]
      apply ih
      · intro r hr x hx hox
        rcases List.mem_append.mp hr with h | h
        · exact List.mem_append_left _ (h1 r h x hx hox)
        · have he : r = mkSemEntry d q := by simpa using h
          have : d.orderId = some x := by simpa [mkSemEntry, he] using hox
          rw [← this]
          simp
      · rw [List.pairwise_append]
        refine ⟨h2, by simp, ?_⟩
        intro a ha b hb
        have hb' : b = mkSemEntry d q := by simpa using hb
        intro x hx hax hbx
        have hdx : d.orderId = some x := by simpa [mkSemEntry, hb'] using hbx
        exact hk (hdx ▸ h1 a ha x hx hax)

theorem isIdMatch_iff (t o : Option Str) :
    isIdMatch t o = true ↔
      ∃ a b : Str, t = some a ∧ o = some b ∧ b ≠ [] ∧ strUpper a = strUpper b := by
  cases t with
  | none => simp [isIdMatch]
  | some a =>
    cases o with
    | none => simp [isIdMatch]
    | some b =>
      simp [isIdMatch, Bool.and_eq_true, List.isEmpty_iff, and_comm]

theorem isEmailMatch_iff (t o : Option Str) :
    isEmailMatch t o = true ↔
      ∃ a b : Str, t = some a ∧ o = some b ∧ b ≠ [] ∧ strLower a = strLower b := by
  cases t with
  | none => simp [isEmailMatch]
  | some a =>
    cases o with
    | none => simp [isEmailMatch]
    | some b =>
      simp [isEmailMatch, Bool.and_eq_true, List.isEmpty_iff, and_comm]

theorem idMatchAt_headUpper :
    ∀ (s tid : Str), idMatchAt s = some tid → ∃ c r, tid = c :: r ∧ c.toUpper = 'O' := by
  intro s tid h
  unfold idMatchAt at h
  split at h
  · split at h
    · next hcond =>
      exact ⟨_, _, (Option.some.inj h).symm, hcond.1⟩
    · exact Option.noConfusion h
  · exact Option.noConfusion h

theorem idSearch_headUpper :
    ∀ (text tid : Str), idSearch text = some tid → ∃ c r, tid = c :: r ∧ c.toUpper = 'O' := by
  intro text
  induction text with
  | nil => intro tid h; simp [idSearch] at h
  | cons c rest ih =>
    intro tid h
    rw [idSearch] at h
    cases hm : idMatchAt (c :: rest) with
    | some m =>
      rw [hm] at h
      exact (Option.some.inj h) ▸ idMatchAt_headUpper _ m hm
    | none =>
      rw [hm] at h
      exact ih tid h

/-- No string whose upper-casing starts with `O` can be one of the
synthetic `email_{i}` keys. -/
theorem syntheticKey_ne (n : Nat) (x tid : Str) (hx : strUpper x = strUpper tid)
    (c : Char) (r : Str) (htid : tid = c :: r) (hc : c.toUpper = 'O') :
    x ≠ syntheticKey n := by
  intro hxe
  have h1 : strUpper x = strUpper (('e' :: ("mail_".toList)) ++ Nat.toDigits 10 n) := by
    rw [hxe]; rfl
  rw [hx, htid] at h1
  have h2 : c.toUpper = 'e'.toUpper := by
    have := congrArg List.head? h1
    simpa [strUpper] using this
  rw [hc] at h2
  exact absurd h2 (by decide)

theorem exactScan_id_hit (tid : Str) (tem : Option Str)
    (hsyn : ∀ (n : Nat) (x : Str), strUpper x = strUpper tid → x ≠ syntheticKey n) :
    ∀ (docs : List Doc) (i : Nat) (src : List ResultE) (fnd : List Key),
      (∀ x : Str, (some x) ∈ fnd →
        (∃ r ∈ src, r.oid = some x) ∨ ∃ n, x = syntheticKey n) →
      ∀ d ∈ docs, isIdMatch (some tid) d.orderId = true →
      ∃ r ∈ (exactScan (some tid) tem docs i src fnd).1, ∃ x : Str,
        r.oid = some x ∧ strUpper x = strUpper tid := by
  intro docs
  induction docs with
  | nil => intro i src fnd _ d hd; exact absurd hd (List.not_mem_nil d)
  | cons d0 rest ih =>
    intro i src fnd hkeys d hd hidm
    cases hm0 : scanMatch (some tid) tem d0 with
    | false =>
      rw [exactScan]
      rw [show (isIdMatch (some tid) d0.orderId || isEmailMatch tem d0.customerEmail) = false from hm0]
      simp only [Bool.false_eq_true, if_false]
      rcases List.mem_cons.mp hd with h | h
      · exact absurd (h ▸ hidm)
          (by simp [scanMatch, Bool.or_eq_true] at hm0; simp [hm0.1])
      · exact ih (i + 1) src fnd hkeys d h hidm
    | true =>
      rw [exactScan]
      rw [show (isIdMatch (some tid) d0.orderId || isEmailMatch tem d0.customerEmail) = true from hm0]
      simp only [if_true]
      rcases List.mem_cons.mp hd with rfl | hmem
      · obtain ⟨a, b, ha, hb, hbne, hub⟩ := (isIdMatch_iff _ _).mp hidm
        have ha' : a = tid := (Option.some.inj ha).symm
        rw [ha'] at hub
        have hcid : currentId d.orderId i = b := by
          simp [currentId, hb, List.isEmpty_iff, hbne]
        by_cases hk : (some (currentId d.orderId i)) ∈ fnd
        · rw [if_pos hk]
          rw [hcid] at hk
          rcases hkeys b hk with ⟨r, hr, hro⟩ | ⟨n, hn⟩
          · obtain ⟨es, h1, -⟩ := exactScan_split (some tid) tem rest (i + 1) src fnd
            refine ⟨r, ?_, b, hro, hub.symm⟩
            rw [h1]
            exact List.mem_append_left _ hr
          · exact absurd hn (hsyn n b hub.symm)
        · rw [if_neg hk]
          obtain ⟨es, h1, -⟩ :=
            exactScan_split (some tid) tem rest (i + 1) (src ++ [mkExactEntry d])
              (fnd ++ [some (currentId d.orderId i)])
          refine ⟨mkExactEntry d, ?_, b, ?_, hub.symm⟩
          · rw [h1]
            exact List.mem_append_left _ (List.mem_append_right _ (by simp))
          · simpa [mkExactEntry] using hb
      · by_cases hk : (some (currentId d0.orderId i)) ∈ fnd
        · rw [if_pos hk]
          exact ih (i + 1) src fnd hkeys d hmem hidm
        · rw [if_neg hk]
          apply ih (i + 1) _ _ _ d hmem hidm
          intro x hx
          rcases List.mem_append.mp hx with h | h
          · rcases hkeys x h with ⟨r, hr, hro⟩ | hsynx
            · exact Or.inl ⟨r, List.mem_append_left _ hr, hro⟩
            · exact Or.inr hsynx
          · have hx' : some x = some (currentId d0.orderId i) := by simpa using h
            have hx2 := Option.some.inj hx'
            cases ho : d0.orderId with
            | none =>
              refine Or.inr ⟨i, ?_⟩
              rw [hx2]; simp [currentId, ho]
            | some y =>
              by_cases hye : y.isEmpty
              · refine Or.inr ⟨i, ?_⟩
                rw [hx2]; simp [currentId, ho, hye]
              · refine Or.inl ⟨mkExactEntry d0, List.mem_append_right _ (by simp), ?_⟩
                rw [hx2]
                simp [currentId, ho, hye, mkExactEntry]

theorem queryCombined_split (s : Store) (text : Str) (k : Nat) :
    ∃ ex sem, queryCombined s text k = ex ++ sem ∧
      (∀ r ∈ ex, ∃ d, d ∈ s.docs ∧ r = mkExactEntry d ∧
          scanMatch (idSearch text) (emailSearch text) d = true) ∧
      (∀ r ∈ sem, ∃ d q, (d, q) ∈ s.search text k ∧ r = mkSemEntry d q) := by
  by_cases hc : ((idSearch text).isSome || (emailSearch text).isSome) = true
  · obtain ⟨es, h1, h2⟩ := exactScan_split (idSearch text) (emailSearch text) s.docs 0 [] []
    obtain ⟨es2, h3, h4⟩ := semanticAdd_split (s.search text k)
        (exactScan (idSearch text) (emailSearch text) s.docs 0 [] []).1
        (exactScan (idSearch text) (emailSearch text) s.docs 0 [] []).2
    refine ⟨(exactScan (idSearch text) (emailSearch text) s.docs 0 [] []).1, es2, ?_, ?_, h4⟩
    · rw [queryCombined]
      simp only [hc, if_true]
      exact h3
    · intro r hr
      rw [h1] at hr
      obtain ⟨d, hd, he, hm⟩ := h2 r (by simpa using hr)
      exact ⟨d, hd, he, hm⟩
  · obtain ⟨es2, h3, h4⟩ := semanticAdd_split (s.search text k) [] []
    refine ⟨[], es2, ?_, by simp, h4⟩
    rw [queryCombined]
    simp only [hc, if_false]
    simpa using h3

theorem queryCombined_pairwise (s : Store) (text : Str) (k : Nat) :
    (queryCombined s text k).Pairwise OidDistinct := by
  by_cases hc : ((idSearch text).isSome || (emailSearch text).isSome) = true
  · obtain ⟨hmem, hpw⟩ :=
      exactScan_dedup (idSearch text) (emailSearch text) s.docs 0 [] []
        (by simp) List.Pairwise.nil
    have h := semanticAdd_dedup (s.search text k)
        (exactScan (idSearch text) (emailSearch text) s.docs 0 [] []).1
        (exactScan (idSearch text) (emailSearch text) s.docs 0 [] []).2 hmem hpw
    rw [queryCombined]
    simpa only [hc, if_true] using h
  · have h := semanticAdd_dedup (s.search text k) [] [] (by simp) List.Pairwise.nil
    rw [queryCombined]
    simpa only [hc, if_false] using h

theorem queryFull_pairwise (s : Store) (text : Str) (k : Nat) :
    (queryFull s text k).Pairwise OidDistinct :=
  List.Pairwise.sublist (List.take_sublist _ _) (queryCombined_pairwise s text k)

/-!  Claim theorems. -/

/-- Claim C6: for every query text and every `k ≥ 0`, the sequence
returned by `RAGManager.query(text, k)` has length at most `k`
(`sources[:k]`, line 214; `k : Nat` covers exactly the `k ≥ 0` range). -/
theorem claim6_result_cap (mkSearch : List Doc → Str → Nat → List (Doc × ℚ))
    (st : MgrState) (text : Str) (k : Nat) :
    ((queryS mkSearch st text k).1).length ≤ k := by
  cases hg : getVectorStore mkSearch st with
  | mk fst snd =>
    cases fst with
    | none => simp [queryS, hg]
    | some s =>
      simp only [queryS, hg, queryFull]
      exact List.length_take_le _ _

/-- Claim C7: `query` on a manager whose index was never built
(`vector_store` is `None`) and whose persist directory holds no
persisted index returns the empty sequence (and, the embedding being
total, raises no exception): `get_vector_store` warns and returns
`None`, and `query` returns `[]` at line 159. -/
theorem claim7_empty_index (mkSearch : List Doc → Str → Nat → List (Doc × ℚ))
    (st : MgrState) (text : Str) (k : Nat)
    (h1 : st.vectorStore = none) (h2 : st.disk = []) :
    (queryS mkSearch st text k).1 = [] := by
  simp [queryS, getVectorStore, h1, h2]

/-- A fresh manager state: nothing indexed, empty persist directory. -/
def emptyMgr : MgrState :=
  { persistDirectory := "data/vectorstore".toList, embeddings := 7,
    vectorStore := none, disk := [] }

/-- A trivial external search capability. -/
def mk0 : List Doc → Str → Nat → List (Doc × ℚ) := fun _ _ _ => []

/-- Witness for C7: the hypotheses hold of the fresh manager and the
query returns the empty list. -/
theorem claim7_witness :
    emptyMgr.vectorStore = none ∧ emptyMgr.disk = [] ∧
    (queryS mk0 emptyMgr ("what is the status of ORD-0003".toList) 10).1 = [] :=
  ⟨rfl, rfl, claim7_empty_index mk0 emptyMgr _ 10 rfl rfl⟩

/-- Claim C10: a `query` call never writes to the persisted index or the
stored documents; of the manager's fields only `vector_store` may
change, and only from `None` to the handle loaded from the (non-empty)
persist directory. -/
theorem claim10_frame (mkSearch : List Doc → Str → Nat → List (Doc × ℚ))
    (st : MgrState) (text : Str) (k : Nat) :
    ((queryS mkSearch st text k).2).persistDirectory = st.persistDirectory ∧
    ((queryS mkSearch st text k).2).embeddings = st.embeddings ∧
    ((queryS mkSearch st text k).2).disk = st.disk ∧
    (((queryS mkSearch st text k).2).vectorStore = st.vectorStore ∨
      (st.vectorStore = none ∧ st.disk ≠ [] ∧
        ((queryS mkSearch st text k).2).vectorStore =
          some { docs := st.disk, search := mkSearch st.disk })) := by
  cases hv : st.vectorStore with
  | some s => simp [queryS, getVectorStore, hv]
  | none =>
    by_cases hd : st.disk.isEmpty = true
    · simp [queryS, getVectorStore, hv, hd]
    · refine ⟨?_, ?_, ?_, Or.inr ⟨rfl, by simpa [List.isEmpty_iff] using hd, ?_⟩⟩ <;>
        simp [queryS, getVectorStore, hv, hd]

/-- Claim C8: `index_folder` on a folder yielding at least one parseable
record replaces the persisted index in full (afterwards the disk holds
exactly the new documents, so nothing survives from an earlier index of
a different folder), while a folder yielding no documents is a no-op
leaving the whole state untouched. -/
theorem claim8_rebuild (mkSearch : List Doc → Str → Nat → List (Doc × ℚ))
    (st : MgrState) :
    (∀ folderA folderB, folderDocs folderB ≠ [] →
      (indexFolder mkSearch (indexFolder mkSearch st folderA) folderB).disk =
          folderDocs folderB ∧
      ∀ d ∈ folderDocs folderA, d ∉ folderDocs folderB →
        d ∉ (indexFolder mkSearch (indexFolder mkSearch st folderA) folderB).disk) ∧
    (∀ folder, folderDocs folder = [] → indexFolder mkSearch st folder = st) := by
  constructor
  · intro fA fB hB
    have hd : (indexFolder mkSearch (indexFolder mkSearch st fA) fB).disk = folderDocs fB := by
      rw [indexFolder]
      simp [List.isEmpty_iff, hB]
    exact ⟨hd, fun d _ hdB => by rw [hd]; exact hdB⟩
  · intro f hf
    rw [indexFolder]
    simp [hf]

/-- Order `ORD-0007` of customer `c@z.org`, used for the rebuild
scenario. -/
def recC : Record :=
  { emptyRecord with order_id := some ("ORD-0007".toList),
                     customer_email := some ("c@z.org".toList),
                     status := some ("delivered".toList) }

/-- Folder A: one NDJSON file holding two orders (plus a blank and a
malformed line), and one non-NDJSON file that must be ignored. -/
def folderA1 : List NdFile :=
  [{ name := "data/a/orders.ndjson".toList,
     lines := [Line.ok recA, Line.blank, Line.bad, Line.ok recB] },
   { name := "data/a/readme.txt".toList, lines := [Line.ok recC] }]

/-- Folder B: one NDJSON file holding a single different order. -/
def folderB1 : List NdFile :=
  [{ name := "data/b/orders.ndjson".toList, lines := [Line.ok recC] }]

/-- The document folder A's scan builds for `recA`. -/
def docA1 : Doc := buildDocument recA ("data/a/orders.ndjson".toList)

/-- Witness for C8: indexing folder A then folder B leaves exactly
folder B's documents; `docA1` from folder A is gone; the empty folder is
a no-op. -/
theorem claim8_witness :
    folderDocs folderB1 ≠ [] ∧
    (indexFolder mk0 (indexFolder mk0 emptyMgr folderA1) folderB1).disk =
        folderDocs folderB1 ∧
    docA1 ∈ folderDocs folderA1 ∧ docA1 ∉ folderDocs folderB1 ∧
    docA1 ∉ (indexFolder mk0 (indexFolder mk0 emptyMgr folderA1) folderB1).disk ∧
    folderDocs ([] : List NdFile) = [] ∧
    indexFolder mk0 emptyMgr [] = emptyMgr :=
  ⟨by decide,
   ((claim8_rebuild mk0 emptyMgr).1 folderA1 folderB1 (by decide)).1,
   by decide, by decide,
   ((claim8_rebuild mk0 emptyMgr).1 folderA1 folderB1 (by decide)).2 docA1
     (by decide) (by decide),
   rfl,
   (claim8_rebuild mk0 emptyMgr).2 [] rfl⟩

/-- Claim C3 (amended: restricted to non-empty order IDs — see
`claim3_cex` for the empty-string exception): no two entries of one
`query` result carry the same non-empty order ID; a semantic result
whose order ID is already in the de-duplication set is skipped. -/
theorem claim3_dedup (mkSearch : List Doc → Str → Nat → List (Doc × ℚ))
    (st : MgrState) (text : Str) (k : Nat) :
    ((queryS mkSearch st text k).1).Pairwise OidDistinct := by
  cases hg : getVectorStore mkSearch st with
  | mk fst snd =>
    cases fst with
    | none => simp [queryS, hg]
    | some s =>
      simp only [queryS, hg]
      exact queryFull_pairwise s text k

/-- Two orders that share the empty string as `order_id` and the same
customer email. -/
def recE1 : Record :=
  { emptyRecord with order_id := some [],
                     customer_email := some ("a@x.com".toList),
                     status := some ("paid".toList) }

/-- Second order with empty `order_id`. -/
def recE2 : Record :=
  { emptyRecord with order_id := some [],
                     customer_email := some ("a@x.com".toList),
                     status := some ("refunded".toList) }

/-- Store holding the two empty-ID documents; no vector results. -/
def storeEE : Store :=
  { docs := [buildDocument recE1 srcPath, buildDocument recE2 srcPath],
    search := fun _ _ => [] }

/-- Counterexample to C3 as stated: both documents carry the order ID
`""` (Python-falsy), so the exact-match pass keys them by the synthetic
per-row keys and appends both — the returned sequence has two entries
sharing the order ID `""`. -/
theorem claim3_cex :
    (queryFull storeEE ("a@x.com".toList) 10).map (fun r => r.oid) =
        [some [], some []] ∧
    (queryFull storeEE ("a@x.com".toList) 10).map (fun r => r.score) = [1, 1] := by
  decide

/-- Claim C5 (amended: the code assigns `score = 1.0` to exact hits and
passes backend relevance scores through unmodified, so the stated bounds
hold exactly when the backend's scores lie in `[0, 1)` — see
`claim5_cex` for an out-of-range backend score surfacing unchanged):
under that assumption every returned score is in `[0, 1]` and score
`1.0` is assigned exactly to the exact-match hits. -/
theorem claim5_scores (s : Store) (text : Str) (k : Nat)
    (h : ∀ p ∈ s.search text k, 0 ≤ p.2 ∧ p.2 < 1) :
    ∀ r ∈ queryFull s text k,
      (0 ≤ r.score ∧ r.score ≤ 1) ∧ (r.score = 1 ↔ r.isExact = true) := by
  intro r hr
  have hr' : r ∈ queryCombined s text k := List.take_subset _ _ hr
  obtain ⟨ex, sem, heq, hex, hsem⟩ := queryCombined_split s text k
  rw [heq] at hr'
  rcases List.mem_append.mp hr' with h1 | h1
  · obtain ⟨d, _, he, -⟩ := hex r h1
    rw [he]
    simp [mkExactEntry]
  · obtain ⟨d, q, hq, he⟩ := hsem r h1
    obtain ⟨hq0, hq1⟩ := h (d, q) hq
    rw [he]
    simp only [mkSemEntry]
    refine ⟨⟨hq0, le_of_lt hq1⟩, ?_, ?_⟩
    · intro h1'
      exact absurd h1' (ne_of_lt hq1)
    · intro hfalse
      simp at hfalse

/-- A store whose backend hands back an out-of-range relevance score. -/
def storeBad : Store :=
  { docs := [docA], search := fun _ _ => [(docB, 2)] }

/-- Counterexample to C5 as stated: the semantic pass stores
`float(score)` without clamping, so a backend relevance score of `2.0`
is returned as-is — outside `[0.0, 1.0]` and not below `1.0` despite
being a semantic (non-exact) result. -/
theorem claim5_cex :
    (queryFull storeBad ("hi there".toList) 10).map (fun r => r.score) = [2] ∧
    (queryFull storeBad ("hi there".toList) 10).map (fun r => r.isExact) = [false] ∧
    ¬((2 : ℚ) ≤ 1) := by
  refine ⟨by decide, by decide, by norm_num⟩

/-- The rational one half, written without division so that kernel
evaluation stays cheap. -/
def half : ℚ := ⟨1, 2, by decide, by decide⟩

/-- A store with one document and an in-range backend score. -/
def storeW5 : Store := { docs := [docA], search := fun _ _ => [(docB, half)] }

/-- Witness for C5: with backend scores inside `[0, 1)`, the concrete
exact hit carries score `1` and satisfies the bounds. -/
theorem claim5_witness :
    (∀ p ∈ storeW5.search ("hello ORD-0001".toList) 10, 0 ≤ p.2 ∧ p.2 < 1) ∧
    ((0 ≤ (mkExactEntry docA).score ∧ (mkExactEntry docA).score ≤ 1) ∧
      ((mkExactEntry docA).score = 1 ↔ (mkExactEntry docA).isExact = true)) :=
  ⟨by decide,
   claim5_scores storeW5 ("hello ORD-0001".toList) 10 (by decide)
     (mkExactEntry docA) (by decide)⟩

/-- A document carrying no `order_id` metadata at all. -/
def docN1 : Doc :=
  { content := "Order note one".toList, orderId := none,
    customerEmail := none, source := some srcPath, dtype := some ("order".toList) }

/-- A second document with no `order_id` metadata. -/
def docN2 : Doc :=
  { content := "Order note two".toList, orderId := none,
    customerEmail := none, source := some srcPath, dtype := some ("order".toList) }

/-- A store whose backend returns both no-ID documents. -/
def storeNN : Store :=
  { docs := [docN1, docN2], search := fun _ _ => [(docN1, half), (docN2, half)] }

/-- Counterexample to C4 as stated: both no-ID documents are semantic
candidates (the backend returns both), `k = 10` leaves room, yet only
the first appears — the vector pass deduplicates every document lacking
`order_id` metadata under the single key `None`. -/
theorem claim4_cex :
    storeNN.search ("recent orders".toList) 10 = [(docN1, half), (docN2, half)] ∧
    (queryFull storeNN ("recent orders".toList) 10).map (fun r => r.content) =
      ["Order note one".toList] := by
  refine ⟨rfl, by decide⟩

theorem isIdMatch_none (t : Option Str) : isIdMatch t none = false := by
  cases t <;> rfl

theorem isEmailMatch_none (t : Option Str) : isEmailMatch t none = false := by
  cases t <;> rfl

/-- Claim C4 (amended): documents without order-ID metadata are never
deduplicated against each other in the exact-match pass (each row gets
its own synthetic key), but in the vector pass they all share the single
key `None`: of two no-ID semantic candidates only the first appears. -/
theorem claim4_dedup_scope :
    (∀ (d1 d2 : Doc) (f : Str → Nat → List (Doc × ℚ)) (text : Str) (k : Nat) (tem : Str),
      d1.orderId = none → d2.orderId = none →
      emailSearch text = some tem →
      isEmailMatch (some tem) d1.customerEmail = true →
      isEmailMatch (some tem) d2.customerEmail = true →
      2 ≤ k →
      ∃ l, queryFull { docs := [d1, d2], search := f } text k =
        mkExactEntry d1 :: mkExactEntry d2 :: l) ∧
    (∀ (s : Store) (d1 d2 : Doc) (text : Str) (k : Nat) (q1 q2 : ℚ),
      d1.orderId = none → d2.orderId = none →
      idSearch text = none → emailSearch text = none →
      s.search text k = [(d1, q1), (d2, q2)] →
      1 ≤ k →
      queryFull s text k = [mkSemEntry d1 q1]) := by
  constructor
  · intro d1 d2 f text k tem h1 h2 hem he1 he2 hk
    have hc : ((idSearch text).isSome || (emailSearch text).isSome) = true := by
      simp [hem]
    have hm1 : (isIdMatch (idSearch text) d1.orderId ||
        isEmailMatch (emailSearch text) d1.customerEmail) = true := by
      rw [h1, isIdMatch_none, hem, Bool.false_or]
      exact he1
    have hm2 : (isIdMatch (idSearch text) d2.orderId ||
        isEmailMatch (emailSearch text) d2.customerEmail) = true := by
      rw [h2, isIdMatch_none, hem, Bool.false_or]
      exact he2
    have hscan : exactScan (idSearch text) (emailSearch text) [d1, d2] 0 [] [] =
        ([mkExactEntry d1, mkExactEntry d2],
         [some (currentId d1.orderId 0), some (currentId d2.orderId 1)]) := by
      rw [exactScan, hm1]
      simp only [if_true]
      rw [if_neg (by simp)]
      rw [exactScan, hm2]
      simp only [if_true]
      rw [if_neg (by simp only [h1, h2, currentId, List.nil_append,
        List.mem_singleton, Option.some.injEq]; decide)]
      rw [exactScan]
      simp
    obtain ⟨n, rfl⟩ : ∃ n, k = n + 2 := ⟨k - 2, by omega⟩
    obtain ⟨es, hes, -⟩ := semanticAdd_split (f text (n + 2))
        [mkExactEntry d1, mkExactEntry d2]
        [some (currentId d1.orderId 0), some (currentId d2.orderId 1)]
    refine ⟨es.take n, ?_⟩
    rw [queryFull, queryCombined]
    simp only [hc, if_true]
    have hscan1 : (exactScan (idSearch text) (emailSearch text) [d1, d2] 0 [] []).1 =
        [mkExactEntry d1, mkExactEntry d2] := by rw [hscan]
    have hscan2 : (exactScan (idSearch text) (emailSearch text) [d1, d2] 0 [] []).2 =
        [some (currentId d1.orderId 0), some (currentId d2.orderId 1)] := by rw [hscan]
    rw [hscan1, hscan2, hes]
    simp [List.take_succ_cons]
  · intro s d1 d2 text k q1 q2 h1 h2 hid hem hs hk
    have hc : ((idSearch text).isSome || (emailSearch text).isSome) = false := by
      simp [hid, hem]
    obtain ⟨n, rfl⟩ : ∃ n, k = n + 1 := ⟨k - 1, by omega⟩
    rw [queryFull, queryCombined]
    simp only [hc, Bool.false_eq_true, if_false]
    rw [hs]
    rw [semanticAdd]
    rw [if_neg (by simp)]
    rw [semanticAdd]
    rw [if_pos (by simp [h1, h2])]
    rw [semanticAdd]
    simp [List.take_succ_cons]

/-- A no-ID document reachable by email match. -/
def docM1 : Doc :=
  { content := "m one".toList, orderId := none,
    customerEmail := some ("a@x.com".toList), source := none, dtype := none }

/-- A second no-ID document with the same email in different case. -/
def docM2 : Doc :=
  { content := "m two".toList, orderId := none,
    customerEmail := some ("A@X.COM".toList), source := none, dtype := none }

/-- Witness for C4: both branches of the amended claim hold at concrete
inputs. -/
theorem claim4_witness :
    (docM1.orderId = none ∧ docM2.orderId = none ∧
      emailSearch ("contact a@x.com".toList) = some ("a@x.com".toList) ∧
      isEmailMatch (some ("a@x.com".toList)) docM1.customerEmail = true ∧
      isEmailMatch (some ("a@x.com".toList)) docM2.customerEmail = true ∧
      (2 : Nat) ≤ 10 ∧
      ∃ l, queryFull { docs := [docM1, docM2], search := mk0 [] }
          ("contact a@x.com".toList) 10 =
        mkExactEntry docM1 :: mkExactEntry docM2 :: l) ∧
    (docN1.orderId = none ∧ docN2.orderId = none ∧
      idSearch ("recent orders".toList) = none ∧
      emailSearch ("recent orders".toList) = none ∧
      storeNN.search ("recent orders".toList) 10 = [(docN1, half), (docN2, half)] ∧
      (1 : Nat) ≤ 10 ∧
      queryFull storeNN ("recent orders".toList) 10 = [mkSemEntry docN1 half]) :=
  ⟨⟨rfl, rfl, by decide, by decide, by decide, by decide,
    claim4_dedup_scope.1 docM1 docM2 (mk0 []) ("contact a@x.com".toList) 10
      ("a@x.com".toList) rfl rfl (by decide) (by decide) (by decide) (by decide)⟩,
   ⟨rfl, rfl, by decide, by decide, rfl, by decide,
    claim4_dedup_scope.2 storeNN docN1 docN2 ("recent orders".toList) 10 half half
      rfl rfl (by decide) (by decide) rfl (by decide)⟩⟩

theorem isIdMatch_noneL (o : Option Str) : isIdMatch none o = false := by
  cases o <;> rfl

theorem isEmailMatch_noneL (o : Option Str) : isEmailMatch none o = false := by
  cases o <;> rfl

/-- Claim C9: the targeted full-scan lookup contributes entries exactly
when the query text contains the `ORD-` + four digits pattern
(case-insensitive) or the email pattern, and its comparisons are
case-insensitive exact equality against the stored `order_id` /
`customer_email` metadata.  Part 1: no pattern, no exact entry; part 2:
a pattern plus a case-insensitively matching stored document yields an
exact entry (in the pre-truncation list — `sources[:k]` may cut it);
part 3: every exact entry originates from a stored document matching the
extracted ID or email under case-insensitive equality. -/
theorem claim9_targeted_lookup :
    (∀ (s : Store) (text : Str) (k : Nat),
      idSearch text = none → emailSearch text = none →
      ∀ r ∈ queryFull s text k, r.isExact = false) ∧
    (∀ (s : Store) (text : Str) (k : Nat) (d : Doc),
      d ∈ s.docs →
      ((∃ tid ds, idSearch text = some tid ∧ d.orderId = some ds ∧ ds ≠ [] ∧
          strUpper tid = strUpper ds) ∨
       (∃ tem es, emailSearch text = some tem ∧ d.customerEmail = some es ∧ es ≠ [] ∧
          strLower tem = strLower es)) →
      ∃ r ∈ queryCombined s text k, r.isExact = true ∧ r.score = 1) ∧
    (∀ (s : Store) (text : Str) (k : Nat) (r : ResultE),
      r ∈ queryFull s text k → r.isExact = true →
      ∃ d, d ∈ s.docs ∧ r.content = d.content ∧
        ((∃ tid ds, idSearch text = some tid ∧ d.orderId = some ds ∧ ds ≠ [] ∧
            strUpper tid = strUpper ds) ∨
         (∃ tem es, emailSearch text = some tem ∧ d.customerEmail = some es ∧ es ≠ [] ∧
            strLower tem = strLower es))) := by
  refine ⟨?_, ?_, ?_⟩
  · intro s text k hid hem r hr
    have hr' := List.take_subset _ _ hr
    obtain ⟨ex, sem, heq, hexs, hsems⟩ := queryCombined_split s text k
    rw [heq] at hr'
    rcases List.mem_append.mp hr' with h1 | h1
    · obtain ⟨d, -, -, hm⟩ := hexs r h1
      rw [hid, hem] at hm
      simp [scanMatch, isIdMatch_noneL, isEmailMatch_noneL] at hm
    · obtain ⟨d, q, -, he⟩ := hsems r h1
      rw [he]
      rfl
  · intro s text k d hd hcond
    have hm : scanMatch (idSearch text) (emailSearch text) d = true := by
      rcases hcond with ⟨tid, ds, h1, h2, h3, h4⟩ | ⟨tem, es, h1, h2, h3, h4⟩
      · simp only [scanMatch, Bool.or_eq_true]
        exact Or.inl ((isIdMatch_iff _ _).mpr ⟨tid, ds, h1, h2, h3, h4⟩)
      · simp only [scanMatch, Bool.or_eq_true]
        exact Or.inr ((isEmailMatch_iff _ _).mpr ⟨tem, es, h1, h2, h3, h4⟩)
    have hc : ((idSearch text).isSome || (emailSearch text).isSome) = true := by
      rcases hcond with ⟨tid, ds, h1, -⟩ | ⟨tem, es, h1, -⟩ <;> simp [h1]
    have hne := exactScan_ne_nil (idSearch text) (emailSearch text) s.docs 0 [] []
      (by simp) d hd hm
    obtain ⟨r0, hr0⟩ := List.exists_mem_of_ne_nil _ hne
    obtain ⟨es, h1, h2⟩ := exactScan_split (idSearch text) (emailSearch text) s.docs 0 [] []
    have hr0' : r0 ∈ es := by
      rw [h1] at hr0
      simpa using hr0
    obtain ⟨d', hd', he', -⟩ := h2 r0 hr0'
    obtain ⟨es2, h3, -⟩ := semanticAdd_split (s.search text k)
      (exactScan (idSearch text) (emailSearch text) s.docs 0 [] []).1
      (exactScan (idSearch text) (emailSearch text) s.docs 0 [] []).2
    refine ⟨r0, ?_, by rw [he']; rfl, by rw [he']; rfl⟩
    rw [queryCombined]
    simp only [hc, if_true]
    rw [h3]
    exact List.mem_append_left _ hr0
  · intro s text k r hr hex
    have hr' := List.take_subset _ _ hr
    obtain ⟨ex, sem, heq, hexs, hsems⟩ := queryCombined_split s text k
    rw [heq] at hr'
    rcases List.mem_append.mp hr' with h1 | h1
    · obtain ⟨d, hd, he, hm⟩ := hexs r h1
      refine ⟨d, hd, by rw [he]; rfl, ?_⟩
      rcases Bool.or_eq_true _ _ |>.mp (by simpa [scanMatch] using hm) with hm' | hm'
      · obtain ⟨a, b, ha, hb, hbne, hub⟩ := (isIdMatch_iff _ _).mp hm'
        exact Or.inl ⟨a, b, ha, hb, hbne, hub⟩
      · obtain ⟨a, b, ha, hb, hbne, hub⟩ := (isEmailMatch_iff _ _).mp hm'
        exact Or.inr ⟨a, b, ha, hb, hbne, hub⟩
    · obtain ⟨d, q, -, he⟩ := hsems r h1
      rw [he] at hex
      simp [mkSemEntry] at hex

/-- Witness for C9: all three parts applied at concrete inputs. -/
theorem claim9_witness :
    (idSearch ("recent orders".toList) = none ∧
      emailSearch ("recent orders".toList) = none ∧
      mkSemEntry docN1 half ∈ queryFull storeNN ("recent orders".toList) 10 ∧
      (mkSemEntry docN1 half).isExact = false) ∧
    (docB ∈ storeAB.docs ∧
      idSearch ("status of ORD-0003 please".toList) = some ("ORD-0003".toList) ∧
      ∃ r ∈ queryCombined storeAB ("status of ORD-0003 please".toList) 10,
        r.isExact = true ∧ r.score = 1) ∧
    (mkExactEntry docA ∈ queryFull storeAB ("ORD-0003 a@x.com".toList) 10 ∧
      ∃ d, d ∈ storeAB.docs ∧ (mkExactEntry docA).content = d.content ∧
        ((∃ tid ds, idSearch ("ORD-0003 a@x.com".toList) = some tid ∧
            d.orderId = some ds ∧ ds ≠ [] ∧ strUpper tid = strUpper ds) ∨
         (∃ tem es, emailSearch ("ORD-0003 a@x.com".toList) = some tem ∧
            d.customerEmail = some es ∧ es ≠ [] ∧ strLower tem = strLower es))) :=
  ⟨⟨by decide, by decide, by decide,
    claim9_targeted_lookup.1 storeNN ("recent orders".toList) 10 (by decide) (by decide)
      (mkSemEntry docN1 half) (by decide)⟩,
   ⟨by decide, by decide,
    claim9_targeted_lookup.2.1 storeAB ("status of ORD-0003 please".toList) 10 docB
      (by decide)
      (Or.inl ⟨"ORD-0003".toList, "ORD-0003".toList, by decide, by decide, by decide,
        by decide⟩)⟩,
   ⟨by decide,
    claim9_targeted_lookup.2.2 storeAB ("ORD-0003 a@x.com".toList) 10
      (mkExactEntry docA) (by decide) rfl⟩⟩

theorem exact_before_sem (ex sem : List ResultE)
    (hex : ∀ r ∈ ex, r.isExact = true) (hsem : ∀ r ∈ sem, r.isExact = false) (k : Nat) :
    ∀ i j (hi : i < ((ex ++ sem).take k).length) (hj : j < ((ex ++ sem).take k).length),
      i ≤ j → (((ex ++ sem).take k).get ⟨j, hj⟩).isExact = true →
      (((ex ++ sem).take k).get ⟨i, hi⟩).isExact = true := by
  intro i j hi hj hij hjex
  have hj0 : j < (ex ++ sem).length := by
    rw [List.length_take] at hj
    exact (lt_min_iff.mp hj).2
  have hi0 : i < (ex ++ sem).length := by
    rw [List.length_take] at hi
    exact (lt_min_iff.mp hi).2
  have htj : ((ex ++ sem).take k).get ⟨j, hj⟩ = (ex ++ sem).get ⟨j, hj0⟩ := by
    simp [List.get_eq_getElem, List.getElem_take]
  have hti : ((ex ++ sem).take k).get ⟨i, hi⟩ = (ex ++ sem).get ⟨i, hi0⟩ := by
    simp [List.get_eq_getElem, List.getElem_take]
  rw [htj] at hjex
  rw [hti]
  by_cases hjx : j < ex.length
  · have hix : i < ex.length := lt_of_le_of_lt hij hjx
    have : (ex ++ sem).get ⟨i, hi0⟩ = ex.get ⟨i, hix⟩ := by
      simp only [List.get_eq_getElem]
      exact List.getElem_append_left hix
    rw [this]
    exact hex _ (List.get_mem ex _ _)
  · exfalso
    have hjx' : ex.length ≤ j := le_of_not_lt hjx
    have : (ex ++ sem).get ⟨j, hj0⟩ =
        sem.get ⟨j - ex.length, by rw [List.length_append] at hj0; omega⟩ := by
      simp [List.get_eq_getElem]
      rw [List.getElem_append_right hjx']
    rw [this] at hjex
    rw [hsem _ (List.get_mem sem _ _)] at hjex
    exact Bool.noConfusion hjex

/-- Claim C1 (amended — see `claim1_cex`: when the query also contains
an email pattern, the first result can be an email match whose content
does not contain the queried order ID, so the content clause is weakened
to: some exact entry stems from a document whose order ID equals the
extracted ID case-insensitively): if the query text contains a
well-formed order ID matching a stored document and `k ≥ 1`, the first
returned element has `score = 1.0` and is an exact hit, exact hits
always precede semantic results, and the pre-truncation list contains an
exact entry whose document order ID equals the extracted ID up to
case. -/
theorem claim1_amended (s : Store) (text : Str) (k : Nat) (tid : Str) (d : Doc)
    (hid : idSearch text = some tid)
    (hd : d ∈ s.docs)
    (hmatch : ∃ ds, d.orderId = some ds ∧ ds ≠ [] ∧ strUpper tid = strUpper ds)
    (hk : 1 ≤ k) :
    (∃ e l, queryFull s text k = e :: l ∧ e.score = 1 ∧ e.isExact = true) ∧
    (∀ i j (hi : i < (queryFull s text k).length) (hj : j < (queryFull s text k).length),
      i ≤ j → ((queryFull s text k).get ⟨j, hj⟩).isExact = true →
      ((queryFull s text k).get ⟨i, hi⟩).isExact = true) ∧
    (∃ e ∈ queryCombined s text k, e.isExact = true ∧ e.score = 1 ∧
      ∃ x, e.oid = some x ∧ strUpper x = strUpper tid) := by
  have hc : ((idSearch text).isSome || (emailSearch text).isSome) = true := by
    simp [hid]
  obtain ⟨ds, hds, hdne, hdsu⟩ := hmatch
  have hidm : isIdMatch (some tid) d.orderId = true :=
    (isIdMatch_iff _ _).mpr ⟨tid, ds, rfl, hds, hdne, hdsu⟩
  have hm : scanMatch (idSearch text) (emailSearch text) d = true := by
    simp only [scanMatch, Bool.or_eq_true]
    exact Or.inl (by rw [hid]; exact hidm)
  have hne := exactScan_ne_nil (idSearch text) (emailSearch text) s.docs 0 [] []
    (by simp) d hd hm
  obtain ⟨es, h1, h2⟩ := exactScan_split (idSearch text) (emailSearch text) s.docs 0 [] []
  obtain ⟨es2, h3, h4⟩ := semanticAdd_split (s.search text k)
    (exactScan (idSearch text) (emailSearch text) s.docs 0 [] []).1
    (exactScan (idSearch text) (emailSearch text) s.docs 0 [] []).2
  have hq : queryCombined s text k =
      (exactScan (idSearch text) (emailSearch text) s.docs 0 [] []).1 ++ es2 := by
    rw [queryCombined]
    simp only [hc, if_true]
    exact h3
  have hshape : ∀ r ∈ (exactScan (idSearch text) (emailSearch text) s.docs 0 [] []).1,
      ∃ d0, d0 ∈ s.docs ∧ r = mkExactEntry d0 ∧
        scanMatch (idSearch text) (emailSearch text) d0 = true := by
    intro r hr
    rw [h1] at hr
    exact h2 r (by simpa using hr)
  refine ⟨?_, ?_, ?_⟩
  · obtain ⟨e, l0, hel⟩ :=
      List.exists_cons_of_ne_nil hne
    obtain ⟨d0, -, he0, -⟩ := hshape e (by rw [hel]; exact List.mem_cons_self _ _)
    obtain ⟨n, rfl⟩ : ∃ n, k = n + 1 := ⟨k - 1, by omega⟩
    refine ⟨e, (l0 ++ es2).take n, ?_, by rw [he0]; rfl, by rw [he0]; rfl⟩
    rw [queryFull, hq, hel]
    simp [List.take_succ_cons]
  · intro i j hi hj hij hjex
    have hfull : queryFull s text k =
        ((exactScan (idSearch text) (emailSearch text) s.docs 0 [] []).1 ++ es2).take k := by
      rw [queryFull, hq]
    have hex : ∀ r ∈ (exactScan (idSearch text) (emailSearch text) s.docs 0 [] []).1,
        r.isExact = true := by
      intro r hr
      obtain ⟨d0, -, he0, -⟩ := hshape r hr
      rw [he0]
      rfl
    have hsem : ∀ r ∈ es2, r.isExact = false := by
      intro r hr
      obtain ⟨d0, q, -, he0⟩ := h4 r hr
      rw [he0]
      rfl
    revert hi hj hjex
    rw [hfull]
    intro hi hj hjex
    exact exact_before_sem _ _ hex hsem k i j hi hj hij hjex
  · obtain ⟨c, cr, htid, hcu⟩ := idSearch_headUpper text tid hid
    have hhit := exactScan_id_hit tid (emailSearch text)
      (fun n x hx => syntheticKey_ne n x tid hx c cr htid hcu)
      s.docs 0 [] [] (by simp) d hd hidm
    rw [← hid] at hhit
    obtain ⟨r0, hr0, x, hx1, hx2⟩ := hhit
    obtain ⟨d0, -, he0, -⟩ := hshape r0 hr0
    refine ⟨r0, ?_, by rw [he0]; rfl, by rw [he0]; rfl, x, hx1, hx2⟩
    rw [hq]
    exact List.mem_append_left _ hr0

/-- Counterexample to C1 as stated: the query `"ORD-0003 a@x.com"`
contains the well-formed order ID `ORD-0003`, which matches stored
`docB`; yet the first returned element is the email match `docA`
(earlier in scan order), whose content does not contain `ORD-0003` —
its score is `1.0`, but the content clause of the claim fails. -/
theorem claim1_cex :
    idSearch ("ORD-0003 a@x.com".toList) = some ("ORD-0003".toList) ∧
    docB ∈ storeAB.docs ∧
    docB.orderId = some ("ORD-0003".toList) ∧
    (queryFull storeAB ("ORD-0003 a@x.com".toList) 10).head? = some (mkExactEntry docA) ∧
    (mkExactEntry docA).score = 1 ∧
    containsStr (mkExactEntry docA).content ("ORD-0003".toList) = false := by
  decide

/-- Witness for C1: pure-ID query on the two-document store; the first
returned element is an exact hit with score `1.0`. -/
theorem claim1_witness :
    idSearch ("where is ORD-0003".toList) = some ("ORD-0003".toList) ∧
    docB ∈ storeAB.docs ∧
    (∃ ds, docB.orderId = some ds ∧ ds ≠ [] ∧
      strUpper ("ORD-0003".toList) = strUpper ds) ∧
    (1 : Nat) ≤ 10 ∧
    (∃ e l, queryFull storeAB ("where is ORD-0003".toList) 10 = e :: l ∧
      e.score = 1 ∧ e.isExact = true) :=
  ⟨by decide, by decide, ⟨"ORD-0003".toList, by decide, by decide, by decide⟩,
   by decide,
   (claim1_amended storeAB ("where is ORD-0003".toList) 10 ("ORD-0003".toList) docB
     (by decide) (by decide)
     ⟨"ORD-0003".toList, by decide, by decide, by decide⟩ (by decide)).1⟩

/-- Claim C2 (amended — see `claim2_cex`: the builder does not omit the
shipping and tags lines; it emits them with `N/A` / empty placeholders):
on a record missing `shipping`, `tags`, `coupon_code` and `is_gift` the
per-line transform never fails, produces the text ending in
`Shipping: N/A, N/A` and an empty `Tags:` line with no coupon or gift
line after them, contains no `"None"` artifact, and the metadata
`order_id` is `"N/A"` when `order_id` is absent. -/
theorem claim2_amended (r : Record) (src : Str)
    (h1 : r.shipping = none) (h2 : r.tags = none)
    (h3 : r.coupon_code = none) (h4 : r.is_gift = none) :
    (buildDocument r src).content =
      ("ORDER_SEARCH_ID: ".toList) ++ r.order_id.getD ("N/A".toList) ++
        ("\nCUSTOMER_SEARCH_EMAIL: ".toList) ++ r.customer_email.getD ("N/A".toList) ++
        ("\n".toList) ++ ("Order Details:\n".toList) ++
        ("Order ID: ".toList) ++ r.order_id.getD ("N/A".toList) ++ ("\n".toList) ++
        ("Customer: ".toList) ++ r.customer_email.getD ("N/A".toList) ++ ("\n".toList) ++
        ("Status: ".toList) ++ r.status.getD ("N/A".toList) ++ ("\n".toList) ++
        ("Quantity: ".toList) ++ r.quantity.getD ("0".toList) ++ (", Unit Price: ".toList) ++
        r.unit_price.getD ("0".toList) ++ ("\n".toList) ++
        ("Shipping: N/A, N/A\n".toList) ++ ("Tags: \n".toList) ∧
    (buildDocument r src).orderId = some (r.order_id.getD ("N/A".toList)) ∧
    (r.order_id = none → (buildDocument r src).orderId = some ("N/A".toList)) ∧
    containsStr (buildDocument emptyRecord srcPath).content ("None".toList) = false ∧
    containsStr (buildDocument emptyRecord srcPath).content ("Coupon".toList) = false ∧
    containsStr (buildDocument emptyRecord srcPath).content ("Is Gift".toList) = false := by
  refine ⟨?_, ?_, ?_, by decide, by decide, by decide⟩
  · have e1 : ("Shipping: N/A, N/A\n".toList : Str) =
        ("Shipping: ".toList) ++ ("N/A".toList) ++ (", ".toList) ++
          ("N/A".toList) ++ ("\n".toList) := by decide
    have e2 : ("Tags: \n".toList : Str) =
        ("Tags: ".toList) ++ (List.intercalate (", ".toList) []) ++ ("\n".toList) := by
      decide
    rw [e1, e2]
    simp [buildDocument, h1, h2, h3, h4, tagsLine, List.append_assoc]
  · simp [buildDocument]
  · intro h
    simp [buildDocument, h]

/-- Counterexample to C2 as stated: on the empty record the builder does
emit lines for the missing `shipping` and `tags` fields
(`Shipping: N/A, N/A` and an empty `Tags:` line), so the text does
contain lines for those fields. -/
theorem claim2_cex :
    emptyRecord.shipping = none ∧ emptyRecord.tags = none ∧
    containsStr (buildDocument emptyRecord srcPath).content
        ("Shipping: N/A, N/A\n".toList) = true ∧
    containsStr (buildDocument emptyRecord srcPath).content ("Tags: \n".toList) = true := by
  decide

/-- Witness for C2: the amended claim applied to the empty record. -/
theorem claim2_witness :
    emptyRecord.shipping = none ∧ emptyRecord.tags = none ∧
    emptyRecord.coupon_code = none ∧ emptyRecord.is_gift = none ∧
    (buildDocument emptyRecord srcPath).orderId = some ("N/A".toList) :=
  ⟨rfl, rfl, rfl, rfl,
   (claim2_amended emptyRecord srcPath rfl rfl rfl rfl).2.2.1 rfl⟩
